import Mathlib

/-!
Verification of the PrometheanAI Maya plugin's command-protocol bridge.

The Python sources (promethean_maya.py, promethean_maya_qt_server.py,
promethean_maya_server.py) are shallowly embedded: Maya host primitives
(`cmds.*`, OpenMaya calls) are modelled as oracle fields of environment
structures, numeric values are rationals, and Python truthiness / the
Python-2 ordering of `None` against numbers are made explicit.
-/

namespace Promethean

/-- A 3-component vector with exact rational coordinates, standing in for the
Python 3-element lists / OpenMaya points used throughout the plugin. -/
structure Vec3 where
  x : ℚ
  y : ℚ
  z : ℚ
  deriving DecidableEq, Repr

/-- Componentwise subtraction, as in `[a-b for a, b in zip(u, v)]`. -/
def vsub (a b : Vec3) : Vec3 :=
  ⟨a.x - b.x, a.y - b.y, a.z - b.z⟩

/-- `cross` from promethean_maya.py: the hand-written cross product
("maya doesn't have numpy"). -/
def cross (a b : Vec3) : Vec3 :=
  ⟨a.y * b.z - a.z * b.y,
   a.z * b.x - a.x * b.z,
   a.x * b.y - a.y * b.x⟩

/-- `dot` from promethean_maya.py (`sum([x * y for x, y in zip(a, b)])`),
specialised to the 3-component vectors the plugin feeds it. -/
def dot (a b : Vec3) : ℚ :=
  a.x * b.x + a.y * b.y + a.z * b.z

/-- A triangle as the 3-element point list `tri` of the source, with
`reverse` being Python's `tri.reverse()`. -/
structure Tri where
  p0 : Vec3
  p1 : Vec3
  p2 : Vec3
  deriving DecidableEq, Repr

/-- `tri.reverse()` on a 3-element list. -/
def Tri.reverse (t : Tri) : Tri :=
  ⟨t.p2, t.p1, t.p0⟩

/-- `check_winding_order` from promethean_maya.py: flip the triangle when the
face normal implied by its vertex order disagrees with the requested normal. -/
def check_winding_order (tri : Tri) (normal : Vec3) : Tri :=
  let ab := vsub tri.p0 tri.p1
  let ac := vsub tri.p0 tri.p2
  let cross_product := cross ab ac
  if dot normal cross_product < 0 then tri.reverse else tri

/-- Componentwise division by a scalar, as in
`[x / units_multiplier for x in v]`. -/
def divV (v : Vec3) (m : ℚ) : Vec3 :=
  ⟨v.x / m, v.y / m, v.z / m⟩

/-- Componentwise multiplication by a scalar, as in
`MFloatPoint(*start_point) * units_multiplier`. -/
def mulV (v : Vec3) (m : ℚ) : Vec3 :=
  ⟨v.x * m, v.y * m, v.z * m⟩

/-- Host calls relevant to undo chunking: `cmds.undoInfo(openChunk=True)`,
`cmds.undoInfo(closeChunk=True)`, and any other host mutation (indexed). -/
inductive HostEv where
  | openChunk
  | closeChunk
  | act (n : ℕ)
  deriving DecidableEq, Repr

/-- The run of a Python callable: the host calls it performed, and either a
returned value or a raised exception (`Except.error`). -/
structure PyRun (α : Type) where
  events : List HostEv
  result : Except String α

/-- `one_undo_chunk` from promethean_maya.py: `cmds.undoInfo(openChunk=True)`,
then the wrapped function inside `try .. except: raise .. finally:
cmds.undoInfo(closeChunk=True)` — the finally clause runs on both the return
path and the raise path, so the close event follows the body's events in
either case and the body's outcome is propagated unchanged. -/
def one_undo_chunk {α : Type} (func : PyRun α) : PyRun α :=
  { events := HostEv.openChunk :: func.events ++ [HostEv.closeChunk]
    result := func.result }

/-- Undo-chunk depth change of one host call. -/
def chunkDelta : HostEv → ℤ
  | .openChunk => 1
  | .closeChunk => -1
  | .act _ => 0

/-- Starting from open-chunk depth `d`, the event list never closes a chunk
that is not open and ends with every chunk closed. -/
def balancedFrom : ℤ → List HostEv → Bool
  | d, [] => d = 0
  | d, e :: t =>
    if d + chunkDelta e < 0 then false else balancedFrom (d + chunkDelta e) t

/-- A trace whose undo chunks are all matched: no close without a prior open,
and no chunk left open at the end. -/
def balanced (l : List HostEv) : Bool :=
  balancedFrom 0 l

/-- The reply-accumulation loop of `MayaServer._process_data`
(promethean_maya_qt_server.py): each nonempty line is dispatched through
`command_switch`; a raised exception downgrades the running reply to the
sentinel `'None'`; each dispatch overwrites the running reply (`res`).
`dispatch` abstracts `promethean_maya.command_switch`: `Except.ok none` is a
silent command (Python `None` return), `Except.ok (some s)` a reply,
`Except.error` a raised exception. -/
def process_data (dispatch : String → Except String (Option String)) :
    Option String → List String → Option String
  | res, [] => res
  | res, data :: rest =>
    if data = "" then process_data dispatch res rest
    else
      match dispatch data with
      | .ok r => process_data dispatch r rest
      | .error _ => process_data dispatch (some "None") rest

/-- What `MayaServer._process_data` writes back on the submitting socket for
one received blob: `if res: self._write(res)` — written only when the final
running reply is truthy (not Python `None` and not the empty string). -/
def process_data_writes (dispatch : String → Except String (Option String))
    (lines : List String) : List String :=
  match process_data dispatch none lines with
  | some s => if s = "" then [] else [s]
  | none => []

/-- The module-global `units_multiplier` next to the host's current
1-unit-to-centimeters conversion factor (what
`cmds.convertUnit(1.0, toUnit='cm')` would report right now). -/
structure UnitsSt where
  units_multiplier : ℚ
  hostCm : ℚ
  deriving DecidableEq, Repr

/-- `set_current_units_multiplier` from promethean_maya.py: overwrite the
global with the host's current unit-to-centimeter factor. -/
def set_current_units_multiplier (s : UnitsSt) : UnitsSt :=
  { s with units_multiplier := s.hostCm }

/-- Observable events for the unit-conversion state: the host's linear unit
changes (`callbackFires` tells whether the registered `linearUnitChanged`
scriptJob actually runs), or a `translate` command converts its value. -/
inductive UnitsEv where
  | setUnit (newCm : ℚ) (callbackFires : Bool)
  | translate (value : Vec3)
  deriving DecidableEq

/-- One step of the unit-conversion state machine. A firing callback is
exactly `set_current_units_multiplier` run after the host factor changed; a
`translate` command computes
`[float(x) / units_multiplier for x in command_list[1].split(',')]` with the
module global, and that converted value is what reaches `cmds.move`. -/
def units_step (s : UnitsSt) : UnitsEv → UnitsSt × Option Vec3
  | .setUnit m fires =>
    let s' : UnitsSt := { s with hostCm := m }
    (if fires then set_current_units_multiplier s' else s', none)
  | .translate v => (s, some (divV v s.units_multiplier))

/-- Run a trace of unit events, collecting the converted translate values. -/
def units_run (s : UnitsSt) : List UnitsEv → UnitsSt × List Vec3
  | [] => (s, [])
  | e :: t =>
    let p := units_step s e
    let q := units_run p.1 t
    (q.1, p.2.toList ++ q.2)

/-- Modelled from the spec's words, for comparison only: the conversion
"re-reads the active unit-to-centimeter multiplier on every use rather than
caching it across commands", i.e. a translate converts through the host's
current factor no matter what the cached global holds. -/
def units_run_reread (s : UnitsSt) : List UnitsEv → UnitsSt × List Vec3
  | [] => (s, [])
  | .setUnit m fires :: t =>
    let s' : UnitsSt := { s with hostCm := m }
    units_run_reread (if fires then set_current_units_multiplier s' else s') t
  | .translate v :: t =>
    let q := units_run_reread s t
    (q.1, divV v s.hostCm :: q.2)

/-- State of the threaded server (promethean_maya_server.py): the shared
`command_stack` list and, as instrumentation, the sequence of commands the
single worker has applied so far, in order. Items are
(connection id, command id) pairs. -/
structure SrvState where
  command_stack : List (ℕ × ℕ)
  applied : List (ℕ × ℕ)
  deriving DecidableEq, Repr

/-- Interleaved events of the server: some connection's reader thread appends
a received command (`command_stack.append((data, connection_))`), or the
single worker of `execute_command_stack` runs one loop iteration
(`command_stack.pop(0)` followed by dispatching that item). -/
inductive SrvEv where
  | enqueue (conn cmd : ℕ)
  | work
  deriving DecidableEq

/-- One atomic step of the server model. -/
def srv_step (s : SrvState) : SrvEv → SrvState
  | .enqueue c m => { s with command_stack := s.command_stack ++ [(c, m)] }
  | .work =>
    match s.command_stack with
    | [] => s
    | item :: rest => { command_stack := rest, applied := s.applied ++ [item] }

/-- Run a trace of server events. -/
def srv_run (s : SrvState) : List SrvEv → SrvState
  | [] => s
  | e :: t => srv_run (srv_step s e) t

/-- Queue-arrival order of a trace: the enqueue events in trace order.
Commands of one connection arrive in its submission order, since each
connection has a single reader thread appending them in receive order. -/
def srv_arrivals : List SrvEv → List (ℕ × ℕ)
  | [] => []
  | .enqueue c m :: t => (c, m) :: srv_arrivals t
  | .work :: t => srv_arrivals t

/-- Hex digit of the case-insensitive `[0-9a-f]` classes of `uuid_regex`. -/
def isHexD (c : Char) : Bool :=
  c.isDigit || ("a".front ≤ c && c ≤ "f".front) || ("A".front ≤ c && c ≤ "F".front)

/-- Consume exactly `n` hex digits from the front of the character list. -/
def hexRun : ℕ → List Char → Option (List Char)
  | 0, cs => some cs
  | _ + 1, [] => none
  | n + 1, c :: cs => if isHexD c then hexRun n cs else none

/-- Consume one literal dash. -/
def dashRun : List Char → Option (List Char)
  | [] => none
  | c :: cs => if c = "-".front then some cs else none

/-- Does `uuid_regex` (`[0-9a-f]{8}-[0-9a-f]{4}-[0-9a-f]{4}-[0-9a-f]{4}-`
`[0-9a-f]{12}`, IGNORECASE) match at the start of the character list? -/
def uuidAt (cs : List Char) : Bool :=
  (do
    let r1 ← hexRun 8 cs
    let r2 ← dashRun r1
    let r3 ← hexRun 4 r2
    let r4 ← dashRun r3
    let r5 ← hexRun 4 r4
    let r6 ← dashRun r5
    let r7 ← hexRun 4 r6
    let r8 ← dashRun r7
    hexRun 12 r8).isSome

/-- `re.search` with `uuid_regex`: scan left to right and return the leftmost
match (a UUID is 8+1+4+1+4+1+4+1+12 = 36 characters). -/
def uuid_search : List Char → Option (List Char)
  | [] => none
  | c :: cs => if uuidAt (c :: cs) then some ((c :: cs).take 36) else uuid_search cs

/-- `uuid_regex.search(p_name)` followed by `.group(0)`. -/
def uuid_regex_search (s : String) : Option String :=
  (uuid_search s.data).map fun l => String.mk l

/-- The Maya host's name-lookup primitives as the Identity Resolver uses
them: `cmds.ls(x)` (plain existence lookup), `cmds.ls(x, uuid=True,
long=True)` (resolve a persistent id), `cmds.ls(x, long=True)` (resolve a
display name to long names, possibly several on an ambiguous name). -/
structure NameScene where
  ls : String → List String
  ls_uuid_long : String → List String
  ls_long : String → List String

/-- `old_nodes_names_dict.get(key, None)` on the redirect table, modelled as
an association list (Python dict keys are unique; first match wins). -/
def dictGet : List (String × String) → String → Option String
  | [], _ => none
  | (k, v) :: t, key => if k = key then some v else dictGet t key

/-- `old_nodes_names_dict.pop(key)`: drop the entry under `key`. -/
def dictPop (d : List (String × String)) (key : String) : List (String × String) :=
  d.filter fun e => e.1 != key

/-- Steps (2) and (3) of `get_node_from_promethean_name`: if the name holds a
UUID component resolve it by id (`cmds.ls(uuid, uuid=True, long=True)`,
returning the first hit); otherwise match by display name
(`cmds.ls(p_name, long=True)`), succeeding only on a unique match. -/
def resolve_by_id_or_name (s : NameScene) (dict : List (String × String))
    (p_name : String) : Option String × List (String × String) :=
  match uuid_regex_search p_name with
  | some uuid => ((s.ls_uuid_long uuid).head?, dict)
  | none =>
    match s.ls_long p_name with
    | [n] => (some n, dict)
    | _ => (none, dict)

/-- `get_node_from_promethean_name` from promethean_maya.py, returning the
resolved node (or `none`) together with the possibly-updated redirect table.
`if renamed_node:` is Python truthiness, so an entry whose value is the empty
string is skipped (not evicted); `if cmds.ls(renamed_node):` is truthy when
the lookup list is nonempty. -/
def get_node_from_promethean_name (s : NameScene) (dict : List (String × String))
    (p_name : String) : Option String × List (String × String) :=
  match dictGet dict p_name with
  | some renamed_node =>
    if renamed_node ≠ "" then
      if s.ls renamed_node ≠ [] then (some renamed_node, dict)
      else resolve_by_id_or_name s (dictPop dict p_name) p_name
    else resolve_by_id_or_name s dict p_name
  | none => resolve_by_id_or_name s dict p_name

/-- Written from the spec's §4.3 resolution-order words, for comparison only:
steps (2) and (3) — "extract the persistent-id component from the StableName
and ask the host to resolve by id; if no id component is present, fall back
to resolving by display label alone, but only succeed if exactly one live
object matches". -/
def resolve_spec_rest (s : NameScene) (dict : List (String × String))
    (p_name : String) : Option String × List (String × String) :=
  match uuid_regex_search p_name with
  | some uuid => ((s.ls_uuid_long uuid).head?, dict)
  | none =>
    match s.ls_long p_name with
    | [n] => (some n, dict)
    | _ => (none, dict)

/-- Written from the spec's §4.3 resolution-order words, for comparison only:
"(1) consult RedirectTable for a newer handle known under this exact
StableName; if the redirect target no longer exists, evict the entry and fall
through; (2) …; (3) …". -/
def resolve_spec (s : NameScene) (dict : List (String × String))
    (p_name : String) : Option String × List (String × String) :=
  match dictGet dict p_name with
  | some target =>
    if s.ls target ≠ [] then (some target, dict)
    else resolve_spec_rest s (dictPop dict p_name) p_name
  | none => resolve_spec_rest s dict p_name

/-- A trivial host for witnesses: every lookup comes back empty. -/
def emptyNameScene : NameScene :=
  { ls := fun _ => [], ls_uuid_long := fun _ => [], ls_long := fun _ => [] }

/-- A command handler that raises after one host mutation, for concrete
runs. -/
def pyFail : PyRun (Option String) :=
  { events := [HostEv.act 0], result := Except.error "forced failure" }

/-- A dispatch table for concrete runs: `"boom"` raises, `"silent"` is a
silent command (returns Python `None`), everything else replies with the
command text itself. -/
def demoDispatch : String → Except String (Option String) :=
  fun s =>
    if s = "boom" then Except.error "exception"
    else if s = "silent" then Except.ok none
    else Except.ok (some s)

/-- Python `int(x)`: truncation toward zero. -/
def pyInt (q : ℚ) : ℤ :=
  if 0 ≤ q then ⌊q⌋ else ⌈q⌉

/-- Python truthiness of an optional number: `None` and `0` are falsy. -/
def pyTruthy : Option ℚ → Bool
  | none => false
  | some q => q != 0

/-- Python-2 `a < b` with an optional right operand: `None` orders below
every number, so `a < None` is false. -/
def pyLtNone (a : ℚ) : Option ℚ → Bool
  | none => false
  | some b => a < b

/-- Python-2 `a > b` with an optional right operand: every number is greater
than `None`. -/
def pyGtNone (a : ℚ) : Option ℚ → Bool
  | none => true
  | some b => b < a

/-- Is `pre` an initial segment of `l`? (character-list helper for Python's
substring test). -/
def charsStartWith : List Char → List Char → Bool
  | [], _ => true
  | _ :: _, [] => false
  | n :: ns, c :: cs => n = c && charsStartWith ns cs

/-- Does `needle` occur inside `hay`? -/
def charsContain : List Char → List Char → Bool
  | hay, needle =>
    match hay with
    | [] => needle.isEmpty
    | _ :: rest =>
      charsStartWith needle hay || charsContain rest needle

/-- Python's `needle in hay` substring test on strings. -/
def strContains (hay needle : String) : Bool :=
  charsContain hay.data needle.data

/-- The Maya host primitives the raytrace/placement path consumes. Every
field is one of the external scene-host capabilities (§6 of the spec):
`objectsInView` is `getObjectsInView()` (the viewport draw-frustum
traversal), `panel` is `cmds.getPanel(underPointer=True) or
cmds.getPanel(wf=True)`, `closestIntersection` is
`MFnMesh.closestIntersection` on the named mesh (returning the hit point
within the given max distance, `None` when the ray misses), `closestNormal`
is `MFnMesh.getClosestNormal`, `distanceTo` is `MFloatPoint.distanceTo`,
`normalize` is `MVector.normal()`, `angleBetween` is `cmds.angleBetween
(euler=True, v1, v2)`, and the name oracles stand for `cmds.group`,
`reference_asset`, `cmds.polyCube` and `cmds.parent`. `units_multiplier` is
the module global as read at call time. -/
structure Host where
  objectsInView : List String
  nodeType : String → String
  shapesOf : String → List String
  panel : String
  units_multiplier : ℚ
  closestIntersection : String → Vec3 → Vec3 → ℤ → Option Vec3
  closestNormal : String → Vec3 → Vec3
  distanceTo : Vec3 → Vec3 → ℚ
  normalize : Vec3 → Vec3
  angleBetween : Vec3 → Vec3 → Vec3
  groupName : String → String
  referenceAssetResult : String → List String
  polyCubeName : String → String
  parentedName : String → String → String

/-- `get_geometry_in_view` from promethean_maya.py: keep the in-view objects
that carry at least one mesh shape (a transform contributes via its shapes,
a shape via itself); the source appends the object once per mesh shape, so
duplicates are kept. -/
def get_geometry_in_view (h : Host) : List String :=
  (h.objectsInView.map fun obj =>
    let shapes := if h.nodeType obj = "transform" then h.shapesOf obj else [obj]
    (shapes.filter fun shape => h.nodeType shape == "mesh").map fun _ => obj).flatten

/-- The per-mesh intersection loop of `raytrace`: viewport geometry minus the
ignore list (`x not in ignore_dcc_names`; the list may hold Python `None`
which matches no name), the start point converted to centimeters, the max
distance converted and truncated by `int(...)`, and for every mesh whose
`closestIntersection` reports a hit, the `(hit_object, hit_point,
closest_normal)` triple, in enumeration order. -/
def raytrace_results (h : Host) (start_point direction : Vec3) (distance : ℚ)
    (ignore_dcc_names : List (Option String)) : List (String × Vec3 × Vec3) :=
  ((get_geometry_in_view h).filter
      fun x => !(ignore_dcc_names.contains (some x))).filterMap fun mesh =>
    (h.closestIntersection mesh (mulV start_point h.units_multiplier) direction
        (pyInt (distance * h.units_multiplier))).map
      fun hit_point => (mesh, hit_point, h.closestNormal mesh hit_point)

/-- The closest-hit selection loop of `raytrace`: a left-to-right scan
keeping the first hit, then replacing it only on a strictly smaller distance
(so ties keep the earlier hit). The accumulator carries `(closest_hit,
hit_distance)` as in the source. -/
def closest_scan {α : Type} (key : α → ℚ) :
    Option (α × ℚ) → List α → Option (α × ℚ)
  | acc, [] => acc
  | none, hit :: rest => closest_scan key (some (hit, key hit)) rest
  | some (c, d), hit :: rest =>
    if key hit < d then closest_scan key (some (hit, key hit)) rest
    else closest_scan key (some (c, d)) rest

/-- `raytrace` from promethean_maya.py. Returns `(hit_object, hit_position,
hit_normal)` — position converted back from centimeters, normal normalized —
or `none` when there is no viewport mesh candidate, when the panel under the
pointer / with focus is not a model panel, or when no candidate intersects. -/
def raytrace (h : Host) (start_point direction : Vec3) (distance : ℚ)
    (ignore_dcc_names : List (Option String)) :
    Option (String × Vec3 × Vec3) :=
  if ((get_geometry_in_view h).filter
      fun x => !(ignore_dcc_names.contains (some x))) = [] then none
  else if strContains h.panel "modelPanel" = false then none
  else
    match closest_scan
        (fun hit => h.distanceTo hit.2.1 (mulV start_point h.units_multiplier))
        none (raytrace_results h start_point direction distance ignore_dcc_names)
      with
    | none => none
    | some (closest_hit, _) =>
      some (closest_hit.1, divV closest_hit.2.1 h.units_multiplier,
        h.normalize closest_hit.2.2)

/-- The element of `l` with the smallest key, ties broken by first-visited:
`c` occurs in `l`, everything strictly before it has a strictly larger key,
and nothing anywhere has a smaller key. -/
def leftmostMin {α : Type} (key : α → ℚ) (l : List α) (c : α) : Prop :=
  ∃ l₁ l₂, l = l₁ ++ c :: l₂ ∧ (∀ y ∈ l₁, key c < key y) ∧ ∀ y ∈ l, key c ≤ key y

/-- The `add_objects` payload for one object, with Python absent/`None`
fields as `none` and absent string fields as `""` (both falsy). -/
structure ObjDict where
  name : String
  asset_path : String
  group : Bool
  location : Vec3
  rotation : Vec3
  scale : Vec3
  raytrace_distance : Option ℚ
  raytrace_alignment : Option ℚ
  raytrace_alignment_mask : Option ℚ
  parent_dcc_name : String

/-- The scene effect of a completed `add_object` call: the created node's
name, the world transform passed to `cmds.xform`, and the original Y
rotation re-applied by `cmds.rotate(..., rotateY=True, ws=False)` when the
object was aligned to a hit normal. -/
structure Placed where
  out_name : String
  location : Vec3
  rotation : Vec3
  scale : Vec3
  yRotationApplied : Option ℚ
  deriving DecidableEq, Repr

/-- The downward ray start of `add_object`:
`[location[0], location[1] + raytrace_distance * 0.5, location[2]]` over the
unit-converted location and distance. -/
def add_object_start_point (h : Host) (d : ObjDict) : Vec3 :=
  let location := divV d.location h.units_multiplier
  ⟨location.x,
   location.y + d.raytrace_distance.getD 0 / h.units_multiplier * (1 / 2),
   location.z⟩

/-- The raytrace `add_object` performs when a raytrace distance is supplied:
straight down, over the converted distance, with `ignore_dcc_names=
[out_name]` where `out_name` is still Python `None`. -/
def add_object_ray (h : Host) (d : ObjDict) : Option (String × Vec3 × Vec3) :=
  raytrace h (add_object_start_point h d) ⟨0, -1, 0⟩
    (d.raytrace_distance.getD 0 / h.units_multiplier) [none]

/-- The alignment block of `add_object` for a raytrace that hit: `if
raytrace_alignment or raytrace_alignment_mask:` is Python truthiness, and
`up_dot_product < raytrace_alignment_mask` / `up_dot_product >
raytrace_alignment` follow Python 2's ordering of `None` below every number
(the plugin also targets PySide-era Maya). `none` is the abandoned
placement; otherwise the hit position, the placement rotation, and whether
the original yaw must be re-applied. -/
def add_object_align (h : Host) (d : ObjDict) (hit : String × Vec3 × Vec3) :
    Option (Vec3 × Vec3 × Bool) :=
  if pyTruthy d.raytrace_alignment || pyTruthy d.raytrace_alignment_mask then
    if pyLtNone (dot ⟨0, 1, 0⟩ hit.2.2) d.raytrace_alignment_mask then none
    else if pyGtNone (dot ⟨0, 1, 0⟩ hit.2.2) d.raytrace_alignment then
      some (hit.2.1, h.angleBetween ⟨0, 1, 0⟩ hit.2.2, true)
    else some (hit.2.1, d.rotation, false)
  else some (hit.2.1, d.rotation, false)

/-- The first half of `add_object`: the final placement location/rotation and
whether the original yaw must be re-applied, or `none` when the placement is
abandoned. `if raytrace_distance:` is Python truthiness; on a hit the
location becomes the hit position and the alignment block runs; on a miss
(and when no raytrace is requested) the unit-converted input location and
the input rotation stand. -/
def add_object_transform (h : Host) (d : ObjDict) : Option (Vec3 × Vec3 × Bool) :=
  if pyTruthy d.raytrace_distance then
    (add_object_ray h d).elim
      (some (divV d.location h.units_multiplier, d.rotation, false))
      (add_object_align h d)
  else some (divV d.location h.units_multiplier, d.rotation, false)

/-- `add_object` from promethean_maya.py: raytrace/alignment first (possibly
abandoning the placement), then create the node (empty group, duplicate
or fresh load of the asset reference, else a default cube), `cmds.xform` it to the
final transform, re-apply the original yaw when the rotation was aligned to
a hit normal, and parent it when the requested parent resolves. -/
def add_object (h : Host) (ns : NameScene) (redirects : List (String × String))
    (d : ObjDict) : Option Placed :=
  match add_object_transform h d with
  | none => none
  | some (location, rotation, y_rotation_needed) =>
    let out_name :=
      if d.group then h.groupName d.name
      else if d.asset_path ≠ "" then
        match h.referenceAssetResult d.asset_path with
        | added :: _ => added
        | [] => h.polyCubeName d.name
      else h.polyCubeName d.name
    let out_name :=
      if d.parent_dcc_name ≠ "" then
        match (get_node_from_promethean_name ns redirects d.parent_dcc_name).1 with
        | some dcc_parent_name => h.parentedName out_name dcc_parent_name
        | none => out_name
      else out_name
    some { out_name := out_name, location := location, rotation := rotation,
           scale := d.scale,
           yRotationApplied :=
             if y_rotation_needed then some d.rotation.y else none }

/-- A one-mesh host for concrete runs: a single viewport mesh "floor", hit at
the origin with an upward normal, a model panel in focus, centimeter units. -/
def demoHost : Host :=
  { objectsInView := ["floor"]
    nodeType := fun _ => "mesh"
    shapesOf := fun _ => []
    panel := "modelPanel4"
    units_multiplier := 1
    closestIntersection := fun _ _ _ _ => some ⟨0, 0, 0⟩
    closestNormal := fun _ _ => ⟨0, 1, 0⟩
    distanceTo := fun _ _ => 5
    normalize := fun v => v
    angleBetween := fun _ _ => ⟨90, 0, 0⟩
    groupName := fun n => n
    referenceAssetResult := fun _ => []
    polyCubeName := fun n => n
    parentedName := fun c _ => c }

/-- A host with nothing in the viewport: every raytrace misses. -/
def missHost : Host :=
  { demoHost with objectsInView := [] }

/-- A host whose viewport does hold mesh geometry, but whose
`closestIntersection` reports no hit: the placement's downward ray misses in
a scene with hittable candidates. -/
def grazeHost : Host :=
  { demoHost with closestIntersection := fun _ _ _ _ => none }

/-- A payload that supplies a raytrace distance and an align threshold of
literal `0` — supplied, but falsy to Python. -/
def cexDict : ObjDict :=
  { name := "cube", asset_path := "", group := false
    location := ⟨0, 0, 0⟩, rotation := ⟨0, 0, 0⟩, scale := ⟨1, 1, 1⟩
    raytrace_distance := some 10, raytrace_alignment := some 0
    raytrace_alignment_mask := none, parent_dcc_name := "" }

/-- The same payload with a meaningful (truthy, nonzero) align threshold
below the witness hit's `dot(up, normal) = 1`. -/
def alignDict : ObjDict :=
  { cexDict with raytrace_alignment := some (-1) }

/-- A payload with no raytrace at all. -/
def plainDict : ObjDict :=
  { cexDict with raytrace_distance := some 10, raytrace_alignment := none }

/-- The host primitives the `parent` command branch consumes:
`cmds.objExists`, `cmds.listRelatives(x, parent=True, f=True)` (first entry,
`none` for a world-level node) and `cmds.ls(x, uuid=True)[0]`. -/
structure PScene where
  objExists : String → Bool
  parentOf : String → Option String
  uuidOf : String → String

/-- `_get_valid_children` from the `parent` branch of `command_switch`: keep
the resolved, existing children; skip a child whose current parent no longer
exists; skip a child when its current parent's UUID equals the resolved
target `parent` (the source's idempotence test `parent_uuid == parent`). -/
def get_valid_children (s : PScene) (parent : String)
    (children : List (Option String)) : List String :=
  let valid_children_exists :=
    (children.filterMap id).filter fun x => s.objExists x
  valid_children_exists.filter fun valid_child =>
    match s.parentOf valid_child with
    | some child_parent =>
      if s.objExists child_parent = false then false
      else if s.uuidOf child_parent = parent then false
      else true
    | none => true

/-- The `parent` branch of `command_switch`: with a resolved, existing target
parent, compute the valid children and, when any remain, issue
`cmds.parent(valid_children, parent)` — returned here as the call's
arguments; `none` means no reparent call is made. -/
def parent_command (s : PScene) (parent : Option String)
    (children : List (Option String)) : Option (List String × String) :=
  match parent with
  | some p =>
    if s.objExists p then
      let valid_children := get_valid_children s p children
      if valid_children = [] then none else some (valid_children, p)
    else none
  | none => none

/-- A two-node scene: child `|P|C` already sits under target `|P`. UUIDs are
in Maya's UUID format; resolved node handles are DAG paths. -/
def pSceneAlready : PScene :=
  { objExists := fun n => n == "|P" || n == "|P|C"
    parentOf := fun n => if n = "|P|C" then some "|P" else none
    uuidOf := fun n =>
      if n = "|P" then "aaaaaaaa-1111-2222-3333-444455556666"
      else "bbbbbbbb-1111-2222-3333-444455556666" }

end Promethean

namespace Promethean

/-- C10: `check_winding_order` returns either the input triangle or its
reversal, and the triangle it returns always satisfies
`dot(normal, cross(p0 - p1, p0 - p2)) >= 0` in exact arithmetic: the emitted
winding never faces against the requested normal. -/
theorem check_winding_order_spec (tri : Tri) (normal : Vec3) :
    (check_winding_order tri normal = tri ∨
      check_winding_order tri normal = tri.reverse) ∧
    0 ≤ dot normal
        (cross (vsub (check_winding_order tri normal).p0 (check_winding_order tri normal).p1)
               (vsub (check_winding_order tri normal).p0 (check_winding_order tri normal).p2)) := by
  by_cases h :
      dot normal (cross (vsub tri.p0 tri.p1) (vsub tri.p0 tri.p2)) < 0
  · have hr : check_winding_order tri normal = tri.reverse := by
      unfold check_winding_order
      simp [h]
    rw [hr]
    refine ⟨Or.inr rfl, ?_⟩
    have hkey :
        dot normal (cross (vsub tri.reverse.p0 tri.reverse.p1) (vsub tri.reverse.p0 tri.reverse.p2)) =
          -dot normal (cross (vsub tri.p0 tri.p1) (vsub tri.p0 tri.p2)) := by
      simp only [Tri.reverse, vsub, cross, dot]
      ring
    rw [hkey]
    linarith
  · have hr : check_winding_order tri normal = tri := by
      unfold check_winding_order
      simp [h]
    rw [hr]
    exact ⟨Or.inl rfl, le_of_not_lt h⟩

end Promethean

namespace Promethean

/-- Appending one close event to a trace that is balanced from depth `d`
yields a trace balanced from depth `d + 1`. -/
theorem balancedFrom_append_close (l : List HostEv) :
    ∀ d : ℤ, 0 ≤ d → balancedFrom d l = true →
      balancedFrom (d + 1) (l ++ [HostEv.closeChunk]) = true := by
  induction l with
  | nil =>
    intro d _ h
    have hd : d = 0 := by simpa [balancedFrom] using h
    subst hd
    simp [balancedFrom, chunkDelta]
  | cons e t ih =>
    intro d hd h
    simp only [balancedFrom, List.cons_append] at h ⊢
    by_cases hneg : d + chunkDelta e < 0
    · simp [hneg] at h
    · rw [if_neg hneg] at h
      have hd' : 0 ≤ d + chunkDelta e := le_of_not_lt hneg
      have harr : d + 1 + chunkDelta e = d + chunkDelta e + 1 := by ring
      rw [harr, if_neg (by omega)]
      exact ih _ hd' h

/-- C5: for every dispatched command, `one_undo_chunk` opens an undo chunk
before the handler's own host calls and closes it after them on every exit
path — the trace and the propagated outcome are the same whether the handler
returns or raises — so a handler whose own trace is chunk-balanced leaves a
chunk-balanced overall trace (no chunk is ever left open after a mid-command
failure). -/
theorem one_undo_chunk_spec {α : Type} (func : PyRun α) :
    (one_undo_chunk func).events =
      HostEv.openChunk :: func.events ++ [HostEv.closeChunk] ∧
    (one_undo_chunk func).result = func.result ∧
    (balanced func.events = true →
      balanced (one_undo_chunk func).events = true) := by
  refine ⟨rfl, rfl, fun hb => ?_⟩
  have h := balancedFrom_append_close func.events 0 le_rfl hb
  show balancedFrom 0
      (HostEv.openChunk :: func.events ++ [HostEv.closeChunk]) = true
  simp only [balancedFrom, List.cons_append, chunkDelta]
  rw [if_neg (by omega)]
  simpa using h

/-- Witness for C5: a handler that mutates once and then raises still
produces the open/body/close trace, the error is propagated, and the trace
is balanced. -/
theorem one_undo_chunk_spec_witness :
    (one_undo_chunk pyFail).events =
      [HostEv.openChunk, HostEv.act 0, HostEv.closeChunk] ∧
    (one_undo_chunk pyFail).result = Except.error "forced failure" ∧
    balanced (one_undo_chunk pyFail).events = true :=
  ⟨(one_undo_chunk_spec pyFail).1, (one_undo_chunk_spec pyFail).2.1,
    (one_undo_chunk_spec pyFail).2.2 (by decide)⟩

end Promethean

namespace Promethean

/-- Processing a concatenation threads the running reply through the first
part and continues with the second. -/
theorem process_data_append (dispatch : String → Except String (Option String))
    (a b : List String) :
    ∀ res, process_data dispatch res (a ++ b) =
      process_data dispatch (process_data dispatch res a) b := by
  induction a with
  | nil => intro res; rfl
  | cons x t ih =>
    intro res
    by_cases hx : x = ""
    · simp only [List.cons_append, process_data, hx, if_pos]
      exact ih res
    · simp only [List.cons_append, process_data, hx, if_neg, ite_false]
      cases dispatch x with
      | ok r => exact ih r
      | error e => exact ih (some "None")

/-- A run over blank lines only leaves the running reply unchanged. -/
theorem process_data_blank (dispatch : String → Except String (Option String)) :
    ∀ (post : List String) res, (∀ l ∈ post, l = "") →
      process_data dispatch res post = res := by
  intro post
  induction post with
  | nil => intro res _; rfl
  | cons x t ih =>
    intro res hall
    have hx : x = "" := hall x (List.mem_cons_self _ _)
    simp only [process_data, hx, if_pos]
    exact ih res fun l hl => hall l (List.mem_cons_of_mem _ hl)

/-- C6 counterexample: a received blob whose first command raises and whose
second command is silent produces no write-back at all — the failing
command's sentinel is overwritten by the later dispatch, so the claim's
guaranteed `'None'` reply for the raising command is not written. -/
theorem process_data_error_reply_counterexample :
    demoDispatch "boom" = Except.error "exception" ∧
    process_data_writes demoDispatch ["boom", "silent"] = [] := by
  constructor
  · rfl
  · rfl

/-- C6 (amended): when the command whose dispatch raises is the last
nonempty command of the received blob, `_process_data` writes back exactly
the sentinel "None" on the submitting connection. -/
theorem process_data_last_error_writes_none
    (dispatch : String → Except String (Option String))
    (pre post : List String) (cmd err : String)
    (hcmd : cmd ≠ "") (hpost : ∀ l ∈ post, l = "")
    (herr : dispatch cmd = Except.error err) :
    process_data_writes dispatch (pre ++ cmd :: post) = ["None"] := by
  unfold process_data_writes
  rw [process_data_append]
  have hstep :
      process_data dispatch (process_data dispatch none pre) (cmd :: post) =
        some "None" := by
    simp only [process_data, hcmd, if_neg, ite_false, herr]
    exact process_data_blank dispatch post (some "None") hpost
  rw [hstep]
  rfl

/-- Witness for C6 (amended): a blob ending in the raising command writes
back the sentinel. -/
theorem process_data_last_error_writes_none_witness :
    process_data_writes demoDispatch ["hello", "boom"] = ["None"] :=
  process_data_last_error_writes_none demoDispatch ["hello"] [] "boom"
    "exception" (by decide) (by intro l hl; cases hl) rfl

end Promethean

namespace Promethean

/-- C8 counterexample: the host's unit changes mid-session without the
`linearUnitChanged` scriptJob firing; the very next `translate` command still
converts through the stale cached multiplier (100 stays 100), while the
claim's re-read-at-use semantics would convert through the host's current
factor (100 becomes 1). -/
theorem units_multiplier_cached_counterexample :
    (units_run ⟨1, 1⟩
        [UnitsEv.setUnit 100 false, UnitsEv.translate ⟨100, 0, 0⟩]).2 =
      [⟨100, 0, 0⟩] ∧
    (units_run_reread ⟨1, 1⟩
        [UnitsEv.setUnit 100 false, UnitsEv.translate ⟨100, 0, 0⟩]).2 =
      [⟨1, 0, 0⟩] ∧
    ([(⟨100, 0, 0⟩ : Vec3)] : List Vec3) ≠ [⟨1, 0, 0⟩] := by
  refine ⟨?_, ?_, by decide⟩
  · show [divV ⟨100, 0, 0⟩ 1] = [⟨100, 0, 0⟩]
    simp [divV]
  · show [divV ⟨100, 0, 0⟩ 100] = [⟨1, 0, 0⟩]
    norm_num [divV]

/-- C8 (amended): translation values are converted through the cached
module-global multiplier, which is refreshed only by the `linearUnitChanged`
callback; as long as every mid-session unit change does fire the callback
(and the global starts in sync, as `set_current_units_multiplier()` at module
load guarantees), the cached run coincides with the spec's
re-read-at-the-moment-of-use semantics. -/
theorem units_run_fires_eq_reread (tr : List UnitsEv) :
    ∀ s : UnitsSt, s.units_multiplier = s.hostCm →
      (∀ m b, UnitsEv.setUnit m b ∈ tr → b = true) →
      units_run s tr = units_run_reread s tr := by
  induction tr with
  | nil => intro s _ _; rfl
  | cons e t ih =>
    intro s hs hall
    cases e with
    | setUnit m b =>
      have hb : b = true := hall m b (List.mem_cons_self _ _)
      subst hb
      have htail : ∀ m' b', UnitsEv.setUnit m' b' ∈ t → b' = true :=
        fun m' b' hm => hall m' b' (List.mem_cons_of_mem _ hm)
      simp only [units_run, units_step, units_run_reread, if_pos]
      rw [ih _ rfl htail]
      simp
    | translate v =>
      have htail : ∀ m' b', UnitsEv.setUnit m' b' ∈ t → b' = true :=
        fun m' b' hm => hall m' b' (List.mem_cons_of_mem _ hm)
      simp only [units_run, units_step, units_run_reread]
      rw [ih s hs htail, hs]
      rfl

/-- Witness for C8 (amended): with the callback firing, the cached run and
the re-read run agree on a unit change followed by a translate. -/
theorem units_run_fires_eq_reread_witness :
    units_run ⟨1, 1⟩
        [UnitsEv.setUnit 100 true, UnitsEv.translate ⟨100, 0, 0⟩] =
      units_run_reread ⟨1, 1⟩
        [UnitsEv.setUnit 100 true, UnitsEv.translate ⟨100, 0, 0⟩] :=
  units_run_fires_eq_reread _ ⟨1, 1⟩ rfl (by
    intro m b h
    simp only [List.mem_cons, List.not_mem_nil, or_false] at h
    rcases h with h | h
    · exact (UnitsEv.setUnit.injEq _ _ _ _).mp h |>.2
    · cases h)

end Promethean

namespace Promethean

/-- The applied sequence followed by the still-queued sequence is always the
initial contents followed by the trace's arrivals, in order. -/
theorem srv_run_inv (tr : List SrvEv) :
    ∀ s : SrvState,
      (srv_run s tr).applied ++ (srv_run s tr).command_stack =
        s.applied ++ s.command_stack ++ srv_arrivals tr := by
  induction tr with
  | nil => intro s; simp [srv_run, srv_arrivals]
  | cons e t ih =>
    intro s
    cases e with
    | enqueue c m =>
      simp only [srv_run, srv_step, srv_arrivals]
      rw [ih]
      simp
    | work =>
      simp only [srv_run, srv_arrivals]
      cases hq : s.command_stack with
      | nil =>
        rw [show srv_step s SrvEv.work = s by simp [srv_step, hq]]
        rw [ih, hq]
      | cons item rest =>
        rw [show srv_step s SrvEv.work =
            ⟨rest, s.applied ++ [item]⟩ by simp [srv_step, hq]]
        rw [ih]
        simp

/-- C9: in every interleaving of reader-thread enqueues and single-worker
dequeues, the worker applies commands in exact queue-arrival order — the
applied sequence plus the still-queued remainder is the arrival sequence, so
the applied sequence is a prefix of it, and its per-connection projection is
a prefix of that connection's own submission order (no reordering within a
connection's sequence). -/
theorem srv_run_fifo (tr : List SrvEv) :
    (srv_run ⟨[], []⟩ tr).applied ++ (srv_run ⟨[], []⟩ tr).command_stack =
      srv_arrivals tr ∧
    (∃ rest, (srv_run ⟨[], []⟩ tr).applied ++ rest = srv_arrivals tr) ∧
    ∀ conn : ℕ, ∃ rest,
      ((srv_run ⟨[], []⟩ tr).applied.filter fun e => e.1 == conn) ++ rest =
        (srv_arrivals tr).filter fun e => e.1 == conn := by
  have h := srv_run_inv tr ⟨[], []⟩
  simp only [List.nil_append] at h
  refine ⟨h, ⟨(srv_run ⟨[], []⟩ tr).command_stack, h⟩, fun conn =>
    ⟨List.filter (fun e => e.1 == conn)
        (srv_run ⟨[], []⟩ tr).command_stack, ?_⟩⟩
  rw [← List.filter_append, h]

end Promethean

namespace Promethean

/-- A successful association-list lookup is a membership. -/
theorem dictGet_mem :
    ∀ (d : List (String × String)) (k v : String),
      dictGet d k = some v → (k, v) ∈ d := by
  intro d
  induction d with
  | nil => intro k v h; cases h
  | cons p t ih =>
    intro k v h
    obtain ⟨pk, pv⟩ := p
    by_cases hk : pk = k
    · subst hk
      rw [dictGet, if_pos rfl] at h
      cases h
      exact List.mem_cons_self _ _
    · rw [dictGet, if_neg hk] at h
      exact List.mem_cons_of_mem _ (ih k v h)

/-- Steps (2) and (3) of the source resolver coincide with the spec's own
wording of those steps. -/
theorem resolve_rest_eq (s : NameScene) (dict : List (String × String))
    (p_name : String) :
    resolve_by_id_or_name s dict p_name = resolve_spec_rest s dict p_name :=
  rfl

/-- C1: `get_node_from_promethean_name` resolves exactly in the spec's order
— redirect table first (returning the redirect target when it still exists,
evicting it and falling through when it does not), then by the UUID component
when one is present, else by unique display-name match — provided the
redirect table never stores an empty node name (Python truthiness would
silently skip, rather than evict, such an entry). -/
theorem get_node_resolution_order (s : NameScene)
    (dict : List (String × String)) (p_name : String)
    (hvals : ∀ k v, (k, v) ∈ dict → v ≠ "") :
    get_node_from_promethean_name s dict p_name =
      resolve_spec s dict p_name := by
  unfold get_node_from_promethean_name resolve_spec
  cases hd : dictGet dict p_name with
  | none => exact resolve_rest_eq s dict p_name
  | some v =>
    have hv : v ≠ "" := hvals p_name v (dictGet_mem dict p_name v hd)
    by_cases hls : s.ls v ≠ []
    · simp [hv, hls]
    · simp [hv, hls, resolve_rest_eq]

/-- Witness for C1: a redirect-table entry with a live target resolves
identically under the source resolver and the spec's resolution order. -/
theorem get_node_resolution_order_witness :
    get_node_from_promethean_name emptyNameScene
        [("sofa#1f0a2b3c-1111-2222-3333-444455556666", "|newSofa")]
        "sofa#1f0a2b3c-1111-2222-3333-444455556666" =
      resolve_spec emptyNameScene
        [("sofa#1f0a2b3c-1111-2222-3333-444455556666", "|newSofa")]
        "sofa#1f0a2b3c-1111-2222-3333-444455556666" :=
  get_node_resolution_order _ _ _ (by
    intro k v h
    simp only [List.mem_singleton, Prod.mk.injEq] at h
    rw [h.2]
    decide)

end Promethean

namespace Promethean

/-- The source's first-hit-then-strict-improvement scan returns the leftmost
minimum of the virtual list `c :: l` (ties keep the earlier element). -/
theorem closest_scan_spec {α : Type} (key : α → ℚ) :
    ∀ (l : List α) (c : α),
      ∃ c', closest_scan key (some (c, key c)) l = some (c', key c') ∧
        leftmostMin key (c :: l) c' := by
  intro l
  induction l with
  | nil =>
    intro c
    refine ⟨c, rfl, [], [], rfl, ?_, ?_⟩
    · intro y hy; cases hy
    · intro y hy
      rcases List.mem_singleton.mp hy with rfl
      exact le_refl _
  | cons x xs ih =>
    intro c
    by_cases hlt : key x < key c
    · obtain ⟨c', hc', l₁, l₂, heq, hstrict, hle⟩ := ih x
      have hcx : key c' ≤ key x := hle x (List.mem_cons_self _ _)
      refine ⟨c', ?_, c :: l₁, l₂, ?_, ?_, ?_⟩
      · simp only [closest_scan, if_pos hlt]
        exact hc'
      · rw [List.cons_append, ← heq]
      · intro y hy
        rcases List.mem_cons.mp hy with rfl | hy'
        · exact lt_of_le_of_lt hcx hlt
        · exact hstrict y hy'
      · intro y hy
        rcases List.mem_cons.mp hy with rfl | hy'
        · exact le_of_lt (lt_of_le_of_lt hcx hlt)
        · exact hle y hy'
    · obtain ⟨c', hc', l₁, l₂, heq, hstrict, hle⟩ := ih c
      refine ⟨c', ?_, ?_⟩
      · simp only [closest_scan, if_neg hlt]
        exact hc'
      · cases l₁ with
        | nil =>
          simp only [List.nil_append] at heq
          obtain ⟨h1, h2⟩ : c = c' ∧ xs = l₂ := by
            injection heq with ha hb; exact ⟨ha, hb⟩
          subst h1; subst h2
          refine ⟨[], x :: xs, rfl, ?_, ?_⟩
          · intro y hy; cases hy
          · intro y hy
            rcases List.mem_cons.mp hy with rfl | hy'
            · exact le_refl _
            · rcases List.mem_cons.mp hy' with rfl | hy''
              · exact le_of_not_lt hlt
              · exact hle y (List.mem_cons_of_mem _ hy'')
        | cons h1 t1 =>
          rw [List.cons_append] at heq
          injection heq with hc1 hxs
          subst hc1
          have hcc : key c' < key c := hstrict c (List.mem_cons_self _ _)
          refine ⟨c :: x :: t1, l₂, ?_, ?_, ?_⟩
          · rw [hxs]; rfl
          · intro y hy
            rcases List.mem_cons.mp hy with rfl | hy'
            · exact hcc
            · rcases List.mem_cons.mp hy' with rfl | hy''
              · exact lt_of_lt_of_le hcc (le_of_not_lt hlt)
              · exact hstrict y (List.mem_cons_of_mem _ hy'')
          · intro y hy
            rcases List.mem_cons.mp hy with rfl | hy'
            · exact le_of_lt hcc
            · rcases List.mem_cons.mp hy' with rfl | hy''
              · exact le_of_lt (lt_of_lt_of_le hcc (le_of_not_lt hlt))
              · exact hle y (List.mem_cons_of_mem _ hy'')

/-- C2: the candidate set of `raytrace` is the viewport-visible mesh
geometry minus the excluded names (that is how `raytrace_results` is built);
the function returns no-hit when the active panel is not a model panel and
when no candidate yields an intersection within the max distance, and when
candidates hit it returns the hit whose point lies closest to the ray
origin, ties broken by first-visited enumeration order. -/
theorem raytrace_spec (h : Host) (start_point direction : Vec3) (distance : ℚ)
    (ignore_dcc_names : List (Option String)) :
    (strContains h.panel "modelPanel" = false →
      raytrace h start_point direction distance ignore_dcc_names = none) ∧
    (raytrace_results h start_point direction distance ignore_dcc_names = [] →
      raytrace h start_point direction distance ignore_dcc_names = none) ∧
    ∀ hit rest,
      raytrace_results h start_point direction distance ignore_dcc_names =
        hit :: rest →
      strContains h.panel "modelPanel" = true →
      ∃ chosen,
        leftmostMin
          (fun r => h.distanceTo r.2.1 (mulV start_point h.units_multiplier))
          (hit :: rest) chosen ∧
        raytrace h start_point direction distance ignore_dcc_names =
          some (chosen.1, divV chosen.2.1 h.units_multiplier,
            h.normalize chosen.2.2) := by
  refine ⟨?_, ?_, ?_⟩
  · intro hp
    unfold raytrace
    by_cases hm : ((get_geometry_in_view h).filter
        fun x => !(ignore_dcc_names.contains (some x))) = []
    · rw [if_pos hm]
    · rw [if_neg hm, if_pos hp]
  · intro hres
    unfold raytrace
    by_cases hm : ((get_geometry_in_view h).filter
        fun x => !(ignore_dcc_names.contains (some x))) = []
    · rw [if_pos hm]
    · by_cases hp : strContains h.panel "modelPanel" = false
      · rw [if_neg hm, if_pos hp]
      · rw [if_neg hm, if_neg hp, hres]
        rfl
  · intro hit rest hres hp
    obtain ⟨c', hscan, hlm⟩ :=
      closest_scan_spec
        (fun r => h.distanceTo r.2.1 (mulV start_point h.units_multiplier))
        rest hit
    refine ⟨c', hlm, ?_⟩
    have hm : ((get_geometry_in_view h).filter
        fun x => !(ignore_dcc_names.contains (some x))) ≠ [] := by
      intro hnil
      have hempty :
          raytrace_results h start_point direction distance ignore_dcc_names
            = [] := by
        unfold raytrace_results
        rw [hnil]
        rfl
      rw [hres] at hempty
      cases hempty
    unfold raytrace
    rw [if_neg hm, if_neg (by simp [hp]), hres]
    have hstep :
        closest_scan
            (fun r => h.distanceTo r.2.1 (mulV start_point h.units_multiplier))
            none (hit :: rest) =
          closest_scan
            (fun r => h.distanceTo r.2.1 (mulV start_point h.units_multiplier))
            (some (hit, h.distanceTo hit.2.1 (mulV start_point h.units_multiplier)))
            rest := rfl
    rw [hstep, hscan]

/-- Witness for C2: with one viewport mesh hit at the origin, `raytrace`
returns that hit, and it is the leftmost minimum of the hit list. -/
theorem raytrace_spec_witness :
    ∃ chosen,
      leftmostMin
        (fun r => demoHost.distanceTo r.2.1
          (mulV ⟨0, 9, 0⟩ demoHost.units_multiplier))
        [("floor", ⟨0, 0, 0⟩, ⟨0, 1, 0⟩)] chosen ∧
      raytrace demoHost ⟨0, 9, 0⟩ ⟨0, -1, 0⟩ 50 [] =
        some (chosen.1, divV chosen.2.1 demoHost.units_multiplier,
          demoHost.normalize chosen.2.2) :=
  (raytrace_spec demoHost ⟨0, 9, 0⟩ ⟨0, -1, 0⟩ 50 []).2.2
    ("floor", ⟨0, 0, 0⟩, ⟨0, 1, 0⟩) [] (by decide) (by decide)

end Promethean

namespace Promethean

/-- C4: when `add_object` is given a raytrace distance but its downward
placement ray fails to hit anything (in whatever scene, with or without
hittable geometry), the object is still created, at the unit-converted input
location with the input rotation and no yaw re-application; and conversely,
whenever `add_object` creates no object, the raytrace was supplied and hit,
a reject threshold (`raytrace_alignment_mask`) was supplied, and the hit
normal's dot product with up fell below it — a raytrace alone never blocks a
placement. -/
theorem add_object_miss_fallback :
    (∀ (h : Host) (ns : NameScene) (redirects : List (String × String))
        (d : ObjDict),
      add_object_ray h d = none →
      ∃ p, add_object h ns redirects d = some p ∧
        p.location = divV d.location h.units_multiplier ∧
        p.rotation = d.rotation ∧ p.yRotationApplied = none) ∧
    (∀ (h' : Host) (ns' : NameScene) (redirects' : List (String × String))
        (d' : ObjDict),
      add_object h' ns' redirects' d' = none →
      pyTruthy d'.raytrace_distance = true ∧
      ∃ mq hit, d'.raytrace_alignment_mask = some mq ∧
        add_object_ray h' d' = some hit ∧
        dot ⟨0, 1, 0⟩ hit.2.2 < mq) := by
  constructor
  · intro h ns redirects d hmiss
    have htr : add_object_transform h d =
        some (divV d.location h.units_multiplier, d.rotation, false) := by
      unfold add_object_transform
      by_cases hrd : pyTruthy d.raytrace_distance = true
      · rw [if_pos hrd, hmiss]
        rfl
      · rw [if_neg hrd]
    unfold add_object
    rw [htr]
    exact ⟨_, rfl, rfl, rfl, rfl⟩
  · intro h' ns' redirects' d' hnone
    unfold add_object at hnone
    cases htr : add_object_transform h' d' with
    | some v =>
      rw [htr] at hnone
      cases hnone
    | none =>
      unfold add_object_transform at htr
      by_cases hrd : pyTruthy d'.raytrace_distance = true
      · rw [if_pos hrd] at htr
        refine ⟨hrd, ?_⟩
        cases hray : add_object_ray h' d' with
        | none => rw [hray] at htr; cases htr
        | some hit =>
          rw [hray] at htr
          simp only [Option.elim] at htr
          unfold add_object_align at htr
          by_cases hor : (pyTruthy d'.raytrace_alignment ||
              pyTruthy d'.raytrace_alignment_mask) = true
          · rw [if_pos hor] at htr
            by_cases hmask : pyLtNone (dot ⟨0, 1, 0⟩ hit.2.2)
                d'.raytrace_alignment_mask = true
            · cases hmv : d'.raytrace_alignment_mask with
              | none => rw [hmv] at hmask; cases hmask
              | some mq =>
                refine ⟨mq, hit, rfl, rfl, ?_⟩
                rw [hmv] at hmask
                simpa [pyLtNone] using hmask
            · rw [if_neg hmask] at htr
              by_cases hgt : pyGtNone (dot ⟨0, 1, 0⟩ hit.2.2)
                  d'.raytrace_alignment = true
              · rw [if_pos hgt] at htr; cases htr
              · rw [if_neg hgt] at htr; cases htr
          · rw [if_neg hor] at htr; cases htr
      · rw [if_neg hrd] at htr
        cases htr

/-- Witness for C4: in a scene whose viewport does hold a mesh candidate,
this placement's downward ray misses it, and the object is still created at
the converted input location and rotation. -/
theorem add_object_miss_fallback_witness :
    ∃ p, add_object grazeHost emptyNameScene [] plainDict = some p ∧
      p.location = divV plainDict.location grazeHost.units_multiplier ∧
      p.rotation = plainDict.rotation ∧ p.yRotationApplied = none :=
  add_object_miss_fallback.1 grazeHost emptyNameScene [] plainDict rfl

end Promethean

namespace Promethean

/-- C3 counterexample: a placement that supplies an align threshold of
literal `0` (and no reject threshold) whose downward ray hits the upward
normal `(0,1,0)` with `dot(up, n) = 1 > 0`, yet the created object keeps the
input rotation `(0,0,0)` instead of the aligned rotation
`angleBetween(up, n) = (90,0,0)`: Python's `if raytrace_alignment or
raytrace_alignment_mask:` treats the supplied `0` as false and skips the
whole alignment block. -/
theorem add_object_alignment_counterexample :
    cexDict.raytrace_alignment = some 0 ∧
    add_object_ray demoHost cexDict =
      some ("floor", ⟨0, 0, 0⟩, ⟨0, 1, 0⟩) ∧
    (0 : ℚ) < dot ⟨0, 1, 0⟩ ⟨0, 1, 0⟩ ∧
    (add_object demoHost emptyNameScene [] cexDict).map Placed.rotation =
      some ⟨0, 0, 0⟩ ∧
    demoHost.angleBetween ⟨0, 1, 0⟩ ⟨0, 1, 0⟩ = ⟨90, 0, 0⟩ ∧
    ((⟨0, 0, 0⟩ : Vec3) ≠ ⟨90, 0, 0⟩) := by
  have h0 : divV ⟨0, 0, 0⟩ demoHost.units_multiplier = (⟨0, 0, 0⟩ : Vec3) := by
    show divV ⟨0, 0, 0⟩ 1 = _
    norm_num [divV]
  have hray : add_object_ray demoHost cexDict =
      some ("floor", ⟨0, 0, 0⟩, ⟨0, 1, 0⟩) := by
    calc add_object_ray demoHost cexDict
        = some ("floor", divV ⟨0, 0, 0⟩ demoHost.units_multiplier,
            ⟨0, 1, 0⟩) := rfl
      _ = some ("floor", ⟨0, 0, 0⟩, ⟨0, 1, 0⟩) := by rw [h0]
  have hrd : pyTruthy cexDict.raytrace_distance = true := by
    show pyTruthy (some 10) = true
    norm_num [pyTruthy]
  have hor : ¬((pyTruthy cexDict.raytrace_alignment ||
      pyTruthy cexDict.raytrace_alignment_mask) = true) := by
    show ¬((pyTruthy (some 0) || pyTruthy none) = true)
    norm_num [pyTruthy]
  have htr : add_object_transform demoHost cexDict =
      some (⟨0, 0, 0⟩, cexDict.rotation, false) := by
    unfold add_object_transform
    rw [if_pos hrd, hray]
    simp only [Option.elim]
    unfold add_object_align
    rw [if_neg hor]
  refine ⟨rfl, hray, by norm_num [dot], ?_, rfl, by decide⟩
  unfold add_object
  rw [htr]
  rfl

/-- C3 (amended): the align/reject thresholds take effect only when the
Python-truthy guard `if raytrace_alignment or raytrace_alignment_mask:`
passes, i.e. when at least one supplied threshold is nonzero. In that case,
for a downward raytrace that hits: if the dot of up with the hit normal
exceeds the supplied align threshold (and the reject test does not fire),
the object's rotation is set to `angleBetween(up, normal)` with the original
yaw re-applied afterwards as a local Y rotation; and if a reject threshold
is supplied and the dot falls below it, the placement is abandoned and no
object is returned. -/
theorem add_object_alignment_amended (h : Host) (ns : NameScene)
    (redirects : List (String × String)) (d : ObjDict) :
    (∀ a hit, d.raytrace_alignment = some a →
      pyTruthy d.raytrace_distance = true →
      (pyTruthy d.raytrace_alignment ||
        pyTruthy d.raytrace_alignment_mask) = true →
      add_object_ray h d = some hit →
      pyLtNone (dot ⟨0, 1, 0⟩ hit.2.2) d.raytrace_alignment_mask = false →
      a < dot ⟨0, 1, 0⟩ hit.2.2 →
      ∃ p, add_object h ns redirects d = some p ∧
        p.location = hit.2.1 ∧
        p.rotation = h.angleBetween ⟨0, 1, 0⟩ hit.2.2 ∧
        p.yRotationApplied = some d.rotation.y) ∧
    (∀ mq hit, d.raytrace_alignment_mask = some mq →
      pyTruthy d.raytrace_distance = true →
      (pyTruthy d.raytrace_alignment ||
        pyTruthy d.raytrace_alignment_mask) = true →
      add_object_ray h d = some hit →
      dot ⟨0, 1, 0⟩ hit.2.2 < mq →
      add_object h ns redirects d = none) := by
  constructor
  · intro a hit ha hrd hor hray hmask hexceed
    have htr : add_object_transform h d =
        some (hit.2.1, h.angleBetween ⟨0, 1, 0⟩ hit.2.2, true) := by
      unfold add_object_transform
      rw [if_pos hrd, hray]
      simp only [Option.elim]
      unfold add_object_align
      rw [if_pos hor, if_neg (by rw [hmask]; exact Bool.false_ne_true),
        if_pos (show pyGtNone (dot ⟨0, 1, 0⟩ hit.2.2)
            d.raytrace_alignment = true by
          rw [ha]; simpa [pyGtNone] using hexceed)]
    unfold add_object
    rw [htr]
    exact ⟨_, rfl, rfl, rfl, rfl⟩
  · intro mq hit hmv hrd hor hray hbelow
    have htr : add_object_transform h d = none := by
      unfold add_object_transform
      rw [if_pos hrd, hray]
      simp only [Option.elim]
      unfold add_object_align
      rw [if_pos hor,
        if_pos (show pyLtNone (dot ⟨0, 1, 0⟩ hit.2.2)
            d.raytrace_alignment_mask = true by
          rw [hmv]; simpa [pyLtNone] using hbelow)]
    unfold add_object
    rw [htr]

/-- Witness for C3 (amended): with an align threshold of 1/2 and an upward
hit normal the created object carries the aligned rotation and the original
yaw re-applied. -/
theorem add_object_alignment_amended_witness :
    ∃ p, add_object demoHost emptyNameScene [] alignDict = some p ∧
      p.location = (⟨0, 0, 0⟩ : Vec3) ∧
      p.rotation = demoHost.angleBetween ⟨0, 1, 0⟩ ⟨0, 1, 0⟩ ∧
      p.yRotationApplied = some alignDict.rotation.y := by
  have h0 : divV ⟨0, 0, 0⟩ demoHost.units_multiplier = (⟨0, 0, 0⟩ : Vec3) := by
    show divV ⟨0, 0, 0⟩ 1 = _
    norm_num [divV]
  have hray : add_object_ray demoHost alignDict =
      some ("floor", ⟨0, 0, 0⟩, ⟨0, 1, 0⟩) := by
    calc add_object_ray demoHost alignDict
        = some ("floor", divV ⟨0, 0, 0⟩ demoHost.units_multiplier,
            ⟨0, 1, 0⟩) := rfl
      _ = some ("floor", ⟨0, 0, 0⟩, ⟨0, 1, 0⟩) := by rw [h0]
  have hrd : pyTruthy alignDict.raytrace_distance = true := by
    show pyTruthy (some 10) = true
    norm_num [pyTruthy]
  have hor : (pyTruthy alignDict.raytrace_alignment ||
      pyTruthy alignDict.raytrace_alignment_mask) = true := by
    show (pyTruthy (some (-1)) || pyTruthy none) = true
    norm_num [pyTruthy]
  exact (add_object_alignment_amended demoHost emptyNameScene [] alignDict).1
    (-1) ("floor", ⟨0, 0, 0⟩, ⟨0, 1, 0⟩) rfl hrd hor hray rfl
    (by norm_num [dot])

end Promethean

namespace Promethean

/-- C7 (code-bug exhibit): in a scene where child `|P|C` already sits under
the resolved target parent `|P`, the `parent` branch still computes
`valid_children = ["|P|C"]` and issues `cmds.parent(["|P|C"], "|P")` instead
of skipping the child as an idempotent no-op: the test `parent_uuid ==
parent` compares the child's parent's UUID against the resolved target node
path, and a Maya UUID (hex groups joined by dashes) can never equal a DAG
path, so the intended skip never fires. -/
theorem parent_command_reparents_existing_child :
    pSceneAlready.parentOf "|P|C" = some "|P" ∧
    pSceneAlready.uuidOf "|P" = "aaaaaaaa-1111-2222-3333-444455556666" ∧
    parent_command pSceneAlready (some "|P") [some "|P|C"] =
      some (["|P|C"], "|P") := by
  refine ⟨rfl, rfl, by decide⟩

end Promethean
